import Mathlib

/-!
Verification of the pycask durable log layer: the entry codec
(`KVWriter._serialize_entry` / `KVWriter._calculate_crc` /
`KVReader.read_entry`), the append writer's rotation and offset
accounting, and the reader's staged corruption checks, shallowly
embedded over lists of bytes (naturals below 256).
-/

namespace PyCask

/-! ### Byte-level primitives

`struct.pack`/`struct.unpack` with format `!IQI I` (network byte order,
fixed widths 4/8/4/4) is modelled by big-endian fixed-width packing of
naturals; Python raises on out-of-range values, which the theorems
reflect as `< 2 ^ (8*w)` hypotheses. -/

/-- Big-endian fixed-width encoding of `n` into `w` bytes, most
significant byte first (the `!` byte order of `struct.pack`). -/
def packBE : Nat → Nat → List Nat
  | 0, _ => []
  | w + 1, n => (n / 256 ^ w) % 256 :: packBE w (n % 256 ^ w)

/-- Big-endian interpretation of a byte list as a natural
(the `struct.unpack` direction). -/
def unpackBE (bs : List Nat) : Nat :=
  bs.foldl (fun acc b => acc * 256 + b) 0

theorem packBE_length (w n : Nat) : (packBE w n).length = w := by
  induction w generalizing n with
  | zero => rfl
  | succ w ih => simp [packBE, ih]

theorem packBE_lt (w n : Nat) : ∀ b ∈ packBE w n, b < 256 := by
  induction w generalizing n with
  | zero => simp [packBE]
  | succ w ih =>
    intro b hb
    simp only [packBE, List.mem_cons] at hb
    rcases hb with h | h
    · subst h
      exact Nat.mod_lt _ (by norm_num)
    · exact ih _ b h

theorem unpackBE_packBE_aux (w n acc : Nat) (h : n < 256 ^ w) :
    (packBE w n).foldl (fun acc b => acc * 256 + b) acc = acc * 256 ^ w + n := by
  induction w generalizing n acc with
  | zero =>
    simp only [packBE, List.foldl_nil, pow_zero]
    omega
  | succ w ih =>
    have h256 : (0:Nat) < 256 ^ w := Nat.pos_pow_of_pos w (by norm_num)
    have hmod : n % 256 ^ w < 256 ^ w := Nat.mod_lt _ h256
    simp only [packBE, List.foldl_cons]
    rw [ih _ _ hmod]
    have hdiv : n / 256 ^ w < 256 := by
      apply Nat.div_lt_of_lt_mul
      calc n < 256 ^ (w + 1) := h
        _ = 256 ^ w * 256 := by rw [pow_succ]
    have : n / 256 ^ w % 256 = n / 256 ^ w := Nat.mod_eq_of_lt hdiv
    rw [this]
    have hdm : n / 256 ^ w * 256 ^ w + n % 256 ^ w = n :=
      Nat.div_add_mod' n (256 ^ w)
    calc (acc * 256 + n / 256 ^ w) * 256 ^ w + n % 256 ^ w
        = acc * (256 ^ w * 256) + (n / 256 ^ w * 256 ^ w + n % 256 ^ w) := by ring
      _ = acc * (256 ^ w * 256) + n := by rw [hdm]
      _ = acc * 256 ^ (w + 1) + n := by rw [pow_succ]

theorem unpackBE_packBE (w n : Nat) (h : n < 256 ^ w) :
    unpackBE (packBE w n) = n := by
  have := unpackBE_packBE_aux w n 0 h
  simpa [unpackBE] using this

/-! ### CRC32 (`zlib.crc32`)

The standard reflected CRC-32 with polynomial `0xEDB88320`, initial
value `0xFFFFFFFF` and final XOR, computed bit by bit. -/

/-- One bit-step of the reflected CRC-32: shift right, conditionally
XOR the reflected polynomial. -/
def crc32Round (c : Nat) : Nat :=
  if c % 2 = 1 then (c / 2) ^^^ 0xEDB88320 else c / 2

/-- Eight `crc32Round` steps. -/
def crc32Rounds : Nat → Nat → Nat
  | 0, c => c
  | k + 1, c => crc32Rounds k (crc32Round c)

/-- Fold one data byte into the running CRC. -/
def crc32UpdateByte (c b : Nat) : Nat :=
  crc32Rounds 8 (c ^^^ b)

/-- `zlib.crc32 data` (masked with `0xffffffff` as the source does). -/
def crc32 (data : List Nat) : Nat :=
  (data.foldl crc32UpdateByte 0xFFFFFFFF) ^^^ 0xFFFFFFFF

theorem crc32Round_lt (c : Nat) (h : c < 2 ^ 32) : crc32Round c < 2 ^ 32 := by
  unfold crc32Round
  split
  · exact Nat.xor_lt_two_pow (by omega) (by norm_num)
  · omega

theorem crc32Rounds_lt (k c : Nat) (h : c < 2 ^ 32) : crc32Rounds k c < 2 ^ 32 := by
  induction k generalizing c with
  | zero => exact h
  | succ k ih => exact ih _ (crc32Round_lt c h)

theorem crc32_lt (data : List Nat) (h : ∀ b ∈ data, b < 256) :
    crc32 data < 2 ^ 32 := by
  have hfold : ∀ (l : List Nat) (c : Nat), (∀ b ∈ l, b < 256) → c < 2 ^ 32 →
      l.foldl crc32UpdateByte c < 2 ^ 32 := by
    intro l
    induction l with
    | nil => intro c _ hc; exact hc
    | cons b t ih =>
      intro c hl hc
      simp only [List.foldl_cons]
      apply ih
      · intro x hx; exact hl x (List.mem_cons_of_mem _ hx)
      · apply crc32Rounds_lt
        exact Nat.xor_lt_two_pow hc
          (lt_of_lt_of_le (hl b (List.mem_cons_self _ _)) (by norm_num))
  exact Nat.xor_lt_two_pow (hfold data _ h (by norm_num)) (by norm_num)

/-! ### UTF-8 (`str.encode('utf-8')` / `bytes.decode('utf-8')`)

A Python `str` is modelled as its list of Unicode code points. Python's
strict UTF-8 codec encodes every non-surrogate scalar value and rejects
overlong forms, surrogates and values above `0x10FFFF` on decode. -/

/-- Code points Python's UTF-8 encoder accepts: Unicode scalar values
(below `0x110000`, not a surrogate). -/
def ValidCodepoint (c : Nat) : Prop :=
  c < 0x110000 ∧ ¬(0xD800 ≤ c ∧ c ≤ 0xDFFF)

instance (c : Nat) : Decidable (ValidCodepoint c) :=
  inferInstanceAs (Decidable (_ ∧ _))

/-- UTF-8 encoding of one code point (1 to 4 bytes). -/
def utf8EncodeChar (c : Nat) : List Nat :=
  if c < 0x80 then [c]
  else if c < 0x800 then [0xC0 + c / 0x40, 0x80 + c % 0x40]
  else if c < 0x10000 then
    [0xE0 + c / 0x1000, 0x80 + c / 0x40 % 0x40, 0x80 + c % 0x40]
  else
    [0xF0 + c / 0x40000, 0x80 + c / 0x1000 % 0x40, 0x80 + c / 0x40 % 0x40,
     0x80 + c % 0x40]

/-- `key.encode('utf-8')`: concatenation of the per-code-point encodings. -/
def utf8Encode (s : List Nat) : List Nat :=
  (s.map utf8EncodeChar).flatten

/-- A UTF-8 continuation byte. -/
def isCont (b : Nat) : Prop := 0x80 ≤ b ∧ b ≤ 0xBF

instance (b : Nat) : Decidable (isCont b) :=
  inferInstanceAs (Decidable (_ ∧ _))

/-- Decode one UTF-8 sequence from the front of a byte list, strictly
(rejecting stray continuation bytes, overlong forms, surrogates and
values above `0x10FFFF`, as Python's strict codec does): the decoded
code point and the remaining bytes, or `none` on malformed input. -/
def utf8DecodeOne : List Nat → Option (Nat × List Nat)
  | [] => none
  | b :: rest =>
    if b ≤ 0x7F then some (b, rest)
    else if 0xC2 ≤ b ∧ b ≤ 0xDF then
      match rest with
      | b1 :: rest1 =>
        if isCont b1 then some ((b - 0xC0) * 0x40 + (b1 - 0x80), rest1)
        else none
      | [] => none
    else if 0xE0 ≤ b ∧ b ≤ 0xEF then
      match rest with
      | b1 :: b2 :: rest2 =>
        if ((b = 0xE0 → 0xA0 ≤ b1) ∧ (b = 0xED → b1 ≤ 0x9F) ∧ isCont b1) ∧
            isCont b2 then
          some ((b - 0xE0) * 0x1000 + (b1 - 0x80) * 0x40 + (b2 - 0x80), rest2)
        else none
      | _ => none
    else if 0xF0 ≤ b ∧ b ≤ 0xF4 then
      match rest with
      | b1 :: b2 :: b3 :: rest3 =>
        if ((b = 0xF0 → 0x90 ≤ b1) ∧ (b = 0xF4 → b1 ≤ 0x8F) ∧ isCont b1) ∧
            isCont b2 ∧ isCont b3 then
          some ((b - 0xF0) * 0x40000 + (b1 - 0x80) * 0x1000 +
            (b2 - 0x80) * 0x40 + (b3 - 0x80), rest3)
        else none
      | _ => none
    else none

/-- Fuel-indexed decoding loop; each successful `utf8DecodeOne` step
consumes at least one byte, so fuel equal to the byte count is always
sufficient and the fuel-exhausted branch is unreachable from
`utf8Decode`. -/
def utf8DecodeLoop : Nat → List Nat → Option (List Nat)
  | _, [] => some []
  | 0, _ :: _ => none
  | fuel + 1, b :: rest =>
    match utf8DecodeOne (b :: rest) with
    | some (c, rest2) => (utf8DecodeLoop fuel rest2).map (fun acc => c :: acc)
    | none => none

/-- `key_data.decode('utf-8')`: `none` exactly when Python raises
`UnicodeDecodeError`. -/
def utf8Decode (l : List Nat) : Option (List Nat) :=
  utf8DecodeLoop l.length l

theorem utf8EncodeChar_lt (c : Nat) (h : ValidCodepoint c) :
    ∀ b ∈ utf8EncodeChar c, b < 256 := by
  obtain ⟨h1, _⟩ := h
  intro b hb
  unfold utf8EncodeChar at hb
  split at hb
  · simp only [List.mem_singleton] at hb; omega
  · split at hb
    · simp only [List.mem_cons, List.not_mem_nil, or_false] at hb
      have k1 : c / 0x40 < 0x20 := by omega
      have k2 : c % 0x40 < 0x40 := Nat.mod_lt _ (by norm_num)
      rcases hb with h | h | h <;> omega
    · split at hb
      · simp only [List.mem_cons, List.not_mem_nil, or_false] at hb
        have k1 : c / 0x1000 < 0x10 := by omega
        have k2 : c / 0x40 % 0x40 < 0x40 := Nat.mod_lt _ (by norm_num)
        have k3 : c % 0x40 < 0x40 := Nat.mod_lt _ (by norm_num)
        rcases hb with h | h | h | h <;> omega
      · simp only [List.mem_cons, List.not_mem_nil, or_false] at hb
        have k1 : c / 0x40000 < 5 := by omega
        have k2 : c / 0x1000 % 0x40 < 0x40 := Nat.mod_lt _ (by norm_num)
        have k3 : c / 0x40 % 0x40 < 0x40 := Nat.mod_lt _ (by norm_num)
        have k4 : c % 0x40 < 0x40 := Nat.mod_lt _ (by norm_num)
        rcases hb with h | h | h | h | h <;> omega

theorem utf8Encode_lt (s : List Nat) (h : ∀ c ∈ s, ValidCodepoint c) :
    ∀ b ∈ utf8Encode s, b < 256 := by
  intro b hb
  simp only [utf8Encode, List.mem_flatten, List.mem_map] at hb
  obtain ⟨l, ⟨c, hc, rfl⟩, hbl⟩ := hb
  exact utf8EncodeChar_lt c (h c hc) b hbl

theorem utf8EncodeChar_ne_nil (c : Nat) : utf8EncodeChar c ≠ [] := by
  unfold utf8EncodeChar
  split
  · simp
  · split
    · simp
    · split <;> simp

theorem utf8DecodeOne_encodeChar (c : Nat) (h : ValidCodepoint c) (rest : List Nat) :
    utf8DecodeOne (utf8EncodeChar c ++ rest) = some (c, rest) := by
  obtain ⟨h1, h2⟩ := h
  unfold utf8EncodeChar
  split
  · case isTrue hc =>
    simp only [List.cons_append, List.nil_append, utf8DecodeOne]
    rw [if_pos (by omega)]
  · case isFalse hc =>
    split
    · case isTrue hc2 =>
      simp only [List.cons_append, List.nil_append, utf8DecodeOne]
      have hm : c % 0x40 < 0x40 := Nat.mod_lt _ (by norm_num)
      rw [if_neg (by omega), if_pos (by constructor <;> omega),
        if_pos (by constructor <;> omega)]
      simp only [Option.some.injEq, Prod.mk.injEq]
      constructor
      · omega
      · trivial
    · case isFalse hc2 =>
      split
      · case isTrue hc3 =>
        simp only [List.cons_append, List.nil_append, utf8DecodeOne]
        have hm1 : c / 0x40 % 0x40 < 0x40 := Nat.mod_lt _ (by norm_num)
        have hm2 : c % 0x40 < 0x40 := Nat.mod_lt _ (by norm_num)
        rw [if_neg (by omega), if_neg (by omega), if_pos (by constructor <;> omega)]
        rw [if_pos ?side]
        case side =>
          refine ⟨⟨?_, ?_, by constructor <;> omega⟩, by constructor <;> omega⟩
          · intro he; omega
          · intro he
            have hc13 : c / 0x1000 = 0xD := by omega
            have : ¬(0xD800 ≤ c) ∨ ¬(c ≤ 0xDFFF) := by tauto
            omega
        simp only [Option.some.injEq, Prod.mk.injEq]
        constructor
        · omega
        · trivial
      · case isFalse hc3 =>
        simp only [List.cons_append, List.nil_append, utf8DecodeOne]
        have hm1 : c / 0x1000 % 0x40 < 0x40 := Nat.mod_lt _ (by norm_num)
        have hm2 : c / 0x40 % 0x40 < 0x40 := Nat.mod_lt _ (by norm_num)
        have hm3 : c % 0x40 < 0x40 := Nat.mod_lt _ (by norm_num)
        rw [if_neg (by omega), if_neg (by omega), if_neg (by omega),
          if_pos (by constructor <;> omega)]
        rw [if_pos ?side]
        case side =>
          refine ⟨⟨?_, ?_, by constructor <;> omega⟩, by constructor <;> omega,
            by constructor <;> omega⟩
          · intro he; omega
          · intro he; omega
        simp only [Option.some.injEq, Prod.mk.injEq]
        constructor
        · omega
        · trivial

theorem utf8DecodeLoop_succ (f b : Nat) (rest : List Nat) :
    utf8DecodeLoop (f + 1) (b :: rest) =
      match utf8DecodeOne (b :: rest) with
      | some (c, rest2) => (utf8DecodeLoop f rest2).map (fun acc => c :: acc)
      | none => none := rfl

theorem length_le_utf8Encode_length (s : List Nat) :
    s.length ≤ (utf8Encode s).length := by
  induction s with
  | nil => simp [utf8Encode]
  | cons c s' ih =>
    have henc : utf8Encode (c :: s') = utf8EncodeChar c ++ utf8Encode s' := by
      simp [utf8Encode]
    rw [henc, List.length_append, List.length_cons]
    have h1 : 1 ≤ (utf8EncodeChar c).length := by
      cases hEC : utf8EncodeChar c with
      | nil => exact absurd hEC (utf8EncodeChar_ne_nil c)
      | cons b0 t => simp
    omega

theorem utf8DecodeLoop_encode (s : List Nat) (h : ∀ c ∈ s, ValidCodepoint c) :
    ∀ fuel, s.length ≤ fuel → utf8DecodeLoop fuel (utf8Encode s) = some s := by
  induction s with
  | nil =>
    intro fuel _
    simp [utf8Encode, utf8DecodeLoop]
  | cons c s' ih =>
    intro fuel hf
    have hc : ValidCodepoint c := h c (List.mem_cons_self _ _)
    have hs' : ∀ x ∈ s', ValidCodepoint x := fun x hx => h x (List.mem_cons_of_mem _ hx)
    obtain ⟨f, rfl⟩ : ∃ f, fuel = f + 1 :=
      ⟨fuel - 1, by simp only [List.length_cons] at hf; omega⟩
    have henc : utf8Encode (c :: s') = utf8EncodeChar c ++ utf8Encode s' := by
      simp [utf8Encode]
    rw [henc]
    cases hEC : utf8EncodeChar c with
    | nil => exact absurd hEC (utf8EncodeChar_ne_nil c)
    | cons b0 t =>
      rw [List.cons_append, utf8DecodeLoop_succ, ← List.cons_append, ← hEC,
        utf8DecodeOne_encodeChar c hc]
      show (utf8DecodeLoop f (utf8Encode s')).map (fun acc => c :: acc) = some (c :: s')
      rw [ih hs' f (by simp only [List.length_cons] at hf; omega)]
      rfl

theorem utf8Decode_encode (s : List Nat) (h : ∀ c ∈ s, ValidCodepoint c) :
    utf8Decode (utf8Encode s) = some s :=
  utf8DecodeLoop_encode s h _ (length_le_utf8Encode_length s)

/-! ### Data model (`models.py`)

`KVEntry` mirrors the dataclass: the key is a Python `str` (list of
code points), the value raw bytes. `KVLocation` mirrors the location
dataclass returned by the writer and consumed by the reader. -/

/-- `KVEntry` from `models.py`. -/
structure KVEntry where
  crc : Nat
  timestamp : Nat
  key_size : Nat
  value_size : Nat
  key : List Nat
  value : List Nat
deriving Repr, DecidableEq

/-- `KVEntry.HEADER_SIZE`: 4 + 8 + 4 + 4 bytes. -/
def HEADER_SIZE : Nat := 20

/-- `KVEntry.total_size`: header plus UTF-8 byte length of the key plus
byte length of the value. -/
def KVEntry.total_size (e : KVEntry) : Nat :=
  HEADER_SIZE + (utf8Encode e.key).length + e.value.length

/-- `KVEntry.create`: sizes computed, CRC left 0. -/
def KVEntry.create (key value : List Nat) (timestamp : Nat) : KVEntry :=
  { crc := 0
    timestamp := timestamp
    key_size := (utf8Encode key).length
    value_size := value.length
    key := key
    value := value }

/-- `KVLocation` from `models.py`. -/
structure KVLocation where
  file_id : Nat
  entry_offset : Nat
  entry_size : Nat
  timestamp : Nat
deriving Repr, DecidableEq

/-! ### Writer-side codec (`writer.py`) -/

/-- The bytes the CRC is computed over (`struct.pack('!QI I', ...)` of
timestamp, key_size, value_size, then key bytes, then value), shared by
`KVWriter._calculate_crc` and `KVReader._verify_crc`. -/
def dataForCrc (e : KVEntry) : List Nat :=
  packBE 8 e.timestamp ++ packBE 4 e.key_size ++ packBE 4 e.value_size ++
    utf8Encode e.key ++ e.value

/-- `KVWriter._calculate_crc`: a copy of the entry with its CRC filled in. -/
def calculate_crc (e : KVEntry) : KVEntry :=
  { e with crc := crc32 (dataForCrc e) }

/-- `KVWriter._serialize_entry`: `struct.pack('!IQI I', ...)` header
followed by the UTF-8 key bytes and the raw value. -/
def serialize_entry (e : KVEntry) : List Nat :=
  packBE 4 e.crc ++ packBE 8 e.timestamp ++ packBE 4 e.key_size ++
    packBE 4 e.value_size ++ utf8Encode e.key ++ e.value

theorem serialize_entry_length (e : KVEntry) :
    (serialize_entry e).length = e.total_size := by
  simp [serialize_entry, KVEntry.total_size, HEADER_SIZE, packBE_length]
  omega

/-! ### Reader (`reader.py`) -/

/-- The distinct `CorruptedEntryError` cases `KVReader.read_entry` can
raise, in source order, each carrying the data its message interpolates. -/
inductive CorruptionError where
  | incompleteHeader (offset : Nat)
  | invalidSizes (key_size value_size : Nat)
  | sizeMismatch (expected calculated : Nat)
  | incompleteKeyData (expected : Nat)
  | incompleteValueData (expected : Nat)
  | invalidKeyEncoding
  | crcMismatch (offset : Nat)
deriving Repr, DecidableEq

/-- `KVReader._verify_crc`: recompute the CRC over the entry's packed
fields and compare with the stored one. -/
def verify_crc (e : KVEntry) : Bool :=
  crc32 (dataForCrc e) == e.crc

/-- `KVReader.read_entry` over the contents of the data file for
`location.file_id`: seek to the offset, read and unpack the 20-byte
header, validate sizes against the location, read key and value bytes,
decode the key as UTF-8 and verify the CRC.  A `file_handle.read(n)`
at position `p` returns `(file.drop p).take n`, which is short exactly
when the file ends early. -/
def read_entry (file : List Nat) (loc : KVLocation) :
    Except CorruptionError KVEntry :=
  let afterSeek := file.drop loc.entry_offset
  let header_data := afterSeek.take HEADER_SIZE
  if header_data.length ≠ HEADER_SIZE then
    .error (.incompleteHeader loc.entry_offset)
  else
    let crc := unpackBE (header_data.take 4)
    let timestamp := unpackBE ((header_data.drop 4).take 8)
    let key_size := unpackBE ((header_data.drop 12).take 4)
    let value_size := unpackBE ((header_data.drop 16).take 4)
    -- source checks `key_size < 0 or value_size < 0`; the unpacked
    -- fields are unsigned, so the check never fires
    if key_size < 0 ∨ value_size < 0 then
      .error (.invalidSizes key_size value_size)
    else
      let expected_size := HEADER_SIZE + key_size + value_size
      if expected_size ≠ loc.entry_size then
        .error (.sizeMismatch loc.entry_size expected_size)
      else
        let key_data := (afterSeek.drop HEADER_SIZE).take key_size
        if key_data.length ≠ key_size then
          .error (.incompleteKeyData key_size)
        else
          let value_data := ((afterSeek.drop HEADER_SIZE).drop key_size).take value_size
          if value_data.length ≠ value_size then
            .error (.incompleteValueData value_size)
          else
            match utf8Decode key_data with
            | none => .error .invalidKeyEncoding
            | some key =>
              let entry : KVEntry :=
                { crc := crc, timestamp := timestamp, key_size := key_size,
                  value_size := value_size, key := key, value := value_data }
              if verify_crc entry then .ok entry
              else .error (.crcMismatch loc.entry_offset)

theorem read_entry_append (pre : List Nat) (c t m n : Nat) (payload : List Nat)
    (loc : KVLocation) (hpre : pre.length = loc.entry_offset)
    (hc : c < 2 ^ 32) (ht : t < 2 ^ 64) (hm : m < 2 ^ 32) (hn : n < 2 ^ 32) :
    read_entry
      (pre ++ (packBE 4 c ++ packBE 8 t ++ packBE 4 m ++ packBE 4 n ++ payload)) loc =
    (if 20 + m + n ≠ loc.entry_size then
      .error (.sizeMismatch loc.entry_size (20 + m + n))
    else if (payload.take m).length ≠ m then .error (.incompleteKeyData m)
    else if ((payload.drop m).take n).length ≠ n then
      .error (.incompleteValueData n)
    else
      match utf8Decode (payload.take m) with
      | none => .error .invalidKeyEncoding
      | some key =>
        if verify_crc ⟨c, t, m, n, key, (payload.drop m).take n⟩ then
          .ok ⟨c, t, m, n, key, (payload.drop m).take n⟩
        else .error (.crcMismatch loc.entry_offset)) := by
  have h4c : (packBE 4 c).length = 4 := packBE_length _ _
  have h8t : (packBE 8 t).length = 8 := packBE_length _ _
  have h4m : (packBE 4 m).length = 4 := packBE_length _ _
  have h4n : (packBE 4 n).length = 4 := packBE_length _ _
  have hdrop : (pre ++ (packBE 4 c ++ packBE 8 t ++ packBE 4 m ++ packBE 4 n ++
      payload)).drop loc.entry_offset =
      packBE 4 c ++ packBE 8 t ++ packBE 4 m ++ packBE 4 n ++ payload := by
    rw [← hpre]; exact List.drop_left _ _
  have hassoc : packBE 4 c ++ packBE 8 t ++ packBE 4 m ++ packBE 4 n ++ payload =
      (packBE 4 c ++ packBE 8 t ++ packBE 4 m ++ packBE 4 n) ++ payload := by
    simp [List.append_assoc]
  have hA20len : (packBE 4 c ++ packBE 8 t ++ packBE 4 m ++ packBE 4 n).length = 20 := by
    simp [h4c, h8t, h4m, h4n]
  simp only [read_entry, HEADER_SIZE]
  rw [hdrop, hassoc, List.take_left' hA20len, List.drop_left' hA20len]
  rw [if_neg (by omega)]
  -- header field extraction
  have htake4 : (packBE 4 c ++ packBE 8 t ++ packBE 4 m ++ packBE 4 n).take 4 =
      packBE 4 c := by
    rw [show packBE 4 c ++ packBE 8 t ++ packBE 4 m ++ packBE 4 n =
      packBE 4 c ++ (packBE 8 t ++ packBE 4 m ++ packBE 4 n) by simp [List.append_assoc]]
    exact List.take_left' h4c
  have hdrop4 : (packBE 4 c ++ packBE 8 t ++ packBE 4 m ++ packBE 4 n).drop 4 =
      packBE 8 t ++ packBE 4 m ++ packBE 4 n := by
    rw [show packBE 4 c ++ packBE 8 t ++ packBE 4 m ++ packBE 4 n =
      packBE 4 c ++ (packBE 8 t ++ packBE 4 m ++ packBE 4 n) by simp [List.append_assoc]]
    exact List.drop_left' h4c
  have htake8 : (packBE 8 t ++ packBE 4 m ++ packBE 4 n).take 8 = packBE 8 t := by
    rw [show packBE 8 t ++ packBE 4 m ++ packBE 4 n =
      packBE 8 t ++ (packBE 4 m ++ packBE 4 n) by simp [List.append_assoc]]
    exact List.take_left' h8t
  have hdrop12 : (packBE 4 c ++ packBE 8 t ++ packBE 4 m ++ packBE 4 n).drop 12 =
      packBE 4 m ++ packBE 4 n := by
    rw [show packBE 4 c ++ packBE 8 t ++ packBE 4 m ++ packBE 4 n =
      (packBE 4 c ++ packBE 8 t) ++ (packBE 4 m ++ packBE 4 n) by
        simp [List.append_assoc]]
    exact List.drop_left' (by simp [h4c, h8t])
  have htakem : (packBE 4 m ++ packBE 4 n).take 4 = packBE 4 m :=
    List.take_left' h4m
  have hdrop16 : (packBE 4 c ++ packBE 8 t ++ packBE 4 m ++ packBE 4 n).drop 16 =
      packBE 4 n := by
    rw [show packBE 4 c ++ packBE 8 t ++ packBE 4 m ++ packBE 4 n =
      (packBE 4 c ++ packBE 8 t ++ packBE 4 m) ++ packBE 4 n by
        simp [List.append_assoc]]
    exact List.drop_left' (by simp [h4c, h8t, h4m])
  have htaken : (packBE 4 n).take 4 = packBE 4 n := by
    rw [← h4n]; exact List.take_length _
  rw [htake4, hdrop4, htake8, hdrop12, htakem, hdrop16, htaken]
  rw [unpackBE_packBE 4 c hc, unpackBE_packBE 8 t ht, unpackBE_packBE 4 m hm,
    unpackBE_packBE 4 n hn]
  rw [if_neg (by omega)]

theorem dataForCrc_lt (e : KVEntry)
    (hkey : ∀ c ∈ e.key, ValidCodepoint c) (hval : ∀ b ∈ e.value, b < 256) :
    ∀ b ∈ dataForCrc e, b < 256 := by
  intro b hb
  simp only [dataForCrc, List.mem_append] at hb
  rcases hb with ((((h | h) | h) | h) | h)
  · exact packBE_lt _ _ b h
  · exact packBE_lt _ _ b h
  · exact packBE_lt _ _ b h
  · exact utf8Encode_lt _ hkey b h
  · exact hval b h

/-- C1: round-trip through the codec.  For every entry built from a
key, value and timestamp (empty key and empty value included),
finalizing the checksum as `KVWriter._calculate_crc` does, serializing
it as `KVWriter._serialize_entry` does and decoding those bytes as
`KVReader.read_entry` does (with the location the writer would hand
out) yields the identical entry: same key, value, timestamp, key_size,
value_size and checksum. -/
theorem C1_codec_roundtrip (key value : List Nat) (ts : Nat)
    (hkey : ∀ c ∈ key, ValidCodepoint c)
    (hval : ∀ b ∈ value, b < 256)
    (hts : ts < 2 ^ 64)
    (hks : (utf8Encode key).length < 2 ^ 32)
    (hvs : value.length < 2 ^ 32) :
    read_entry (serialize_entry (calculate_crc (KVEntry.create key value ts)))
      ⟨0, 0, (KVEntry.create key value ts).total_size, ts⟩ =
      .ok (calculate_crc (KVEntry.create key value ts)) := by
  have hcrc : crc32 (dataForCrc (KVEntry.create key value ts)) < 2 ^ 32 := by
    apply crc32_lt
    exact dataForCrc_lt _ hkey hval
  have hser : serialize_entry (calculate_crc (KVEntry.create key value ts)) =
      [] ++ (packBE 4 (crc32 (dataForCrc (KVEntry.create key value ts))) ++
        packBE 8 ts ++ packBE 4 (utf8Encode key).length ++ packBE 4 value.length ++
        (utf8Encode key ++ value)) := by
    simp [serialize_entry, calculate_crc, KVEntry.create, List.append_assoc]
  rw [hser]
  rw [read_entry_append [] _ ts (utf8Encode key).length value.length
    (utf8Encode key ++ value) _ rfl hcrc hts hks hvs]
  rw [if_neg (by simp [KVEntry.total_size, KVEntry.create, HEADER_SIZE])]
  rw [List.take_left' rfl, List.drop_left' rfl]
  rw [if_neg (by simp)]
  rw [List.take_length]
  rw [if_neg (by simp)]
  rw [utf8Decode_encode key hkey]
  dsimp only
  have hverify : verify_crc
      ⟨crc32 (dataForCrc (KVEntry.create key value ts)), ts,
        (utf8Encode key).length, value.length, key, value⟩ = true := by
    simp only [verify_crc]
    have : dataForCrc ⟨crc32 (dataForCrc (KVEntry.create key value ts)), ts,
        (utf8Encode key).length, value.length, key, value⟩ =
        dataForCrc (KVEntry.create key value ts) := rfl
    rw [this]
    exact beq_self_eq_true _
  rw [if_pos hverify]
  rfl

/-- C1 witness: the round-trip at the empty key, empty value and
timestamp 0. -/
theorem C1_codec_roundtrip_witness :
    read_entry (serialize_entry (calculate_crc (KVEntry.create [] [] 0)))
      ⟨0, 0, (KVEntry.create [] [] 0).total_size, 0⟩ =
      .ok (calculate_crc (KVEntry.create [] [] 0)) :=
  C1_codec_roundtrip [] [] 0 (by simp) (by simp) (by norm_num)
    (by simp [utf8Encode]) (by simp)

theorem read_entry_short_header (f : List Nat) (loc : KVLocation)
    (h : f.length < loc.entry_offset + 20) :
    read_entry f loc = .error (.incompleteHeader loc.entry_offset) := by
  simp only [read_entry, HEADER_SIZE]
  rw [if_pos]
  simp only [List.length_take, List.length_drop]
  omega

theorem serialize_calculate_eq (key value : List Nat) (ts : Nat) :
    serialize_entry (calculate_crc (KVEntry.create key value ts)) =
      [] ++ (packBE 4 (crc32 (dataForCrc (KVEntry.create key value ts))) ++
        packBE 8 ts ++ packBE 4 (utf8Encode key).length ++ packBE 4 value.length ++
        (utf8Encode key ++ value)) := by
  simp [serialize_entry, calculate_crc, KVEntry.create, List.append_assoc]

theorem serialize_take (key value : List Nat) (ts t : Nat) (h20 : 20 ≤ t) :
    (serialize_entry (calculate_crc (KVEntry.create key value ts))).take t =
      [] ++ (packBE 4 (crc32 (dataForCrc (KVEntry.create key value ts))) ++
        packBE 8 ts ++ packBE 4 (utf8Encode key).length ++ packBE 4 value.length ++
        ((utf8Encode key ++ value).take (t - 20))) := by
  rw [serialize_calculate_eq]
  simp only [List.nil_append]
  rw [show packBE 4 (crc32 (dataForCrc (KVEntry.create key value ts))) ++
      packBE 8 ts ++ packBE 4 (utf8Encode key).length ++ packBE 4 value.length ++
      (utf8Encode key ++ value) =
    (packBE 4 (crc32 (dataForCrc (KVEntry.create key value ts))) ++
      packBE 8 ts ++ packBE 4 (utf8Encode key).length ++ packBE 4 value.length) ++
      (utf8Encode key ++ value) by simp [List.append_assoc]]
  have hlen : (packBE 4 (crc32 (dataForCrc (KVEntry.create key value ts))) ++
      packBE 8 ts ++ packBE 4 (utf8Encode key).length ++
      packBE 4 value.length).length = 20 := by
    simp [packBE_length]
  rw [List.take_append_eq_append_take, hlen,
    List.take_of_length_le (hlen.le.trans h20)]

/-- C2: `read_entry` validates in a fixed order, each stage failing with
its own corruption error: a header shorter than 20 bytes yields
incomplete-header; a location size differing from the header-derived
`20 + key_size + value_size` yields size-mismatch; truncation inside
the key region yields incomplete-key-data and inside the value region
incomplete-value-data; key bytes that are not valid UTF-8 yield
invalid-key-encoding; and a stored checksum differing from the
recomputed one yields checksum-mismatch.  Decoding never silently
truncates or substitutes defaults: every such input is an error. -/
theorem C2_decode_validation_stages (key value : List Nat) (ts : Nat)
    (hkey : ∀ c ∈ key, ValidCodepoint c)
    (hval : ∀ b ∈ value, b < 256)
    (hts : ts < 2 ^ 64)
    (hks : (utf8Encode key).length < 2 ^ 32)
    (hvs : value.length < 2 ^ 32) :
    (∀ t, t < 20 →
      read_entry ((serialize_entry (calculate_crc (KVEntry.create key value ts))).take t)
        ⟨0, 0, (KVEntry.create key value ts).total_size, ts⟩ =
        .error (.incompleteHeader 0)) ∧
    (∀ sz, sz ≠ (KVEntry.create key value ts).total_size →
      read_entry (serialize_entry (calculate_crc (KVEntry.create key value ts)))
        ⟨0, 0, sz, ts⟩ =
        .error (.sizeMismatch sz (20 + (utf8Encode key).length + value.length))) ∧
    (∀ t, 20 ≤ t → t < 20 + (utf8Encode key).length →
      read_entry ((serialize_entry (calculate_crc (KVEntry.create key value ts))).take t)
        ⟨0, 0, (KVEntry.create key value ts).total_size, ts⟩ =
        .error (.incompleteKeyData (utf8Encode key).length)) ∧
    (∀ t, 20 + (utf8Encode key).length ≤ t →
      t < 20 + (utf8Encode key).length + value.length →
      read_entry ((serialize_entry (calculate_crc (KVEntry.create key value ts))).take t)
        ⟨0, 0, (KVEntry.create key value ts).total_size, ts⟩ =
        .error (.incompleteValueData value.length)) ∧
    (∀ c kd vd, c < 2 ^ 32 → kd.length < 2 ^ 32 → vd.length < 2 ^ 32 →
      utf8Decode kd = none →
      read_entry (packBE 4 c ++ packBE 8 ts ++ packBE 4 kd.length ++
          packBE 4 vd.length ++ (kd ++ vd))
        ⟨0, 0, 20 + kd.length + vd.length, ts⟩ =
        .error .invalidKeyEncoding) ∧
    (∀ c, c < 2 ^ 32 → c ≠ crc32 (dataForCrc (KVEntry.create key value ts)) →
      read_entry (serialize_entry
          ⟨c, ts, (utf8Encode key).length, value.length, key, value⟩)
        ⟨0, 0, 20 + (utf8Encode key).length + value.length, ts⟩ =
        .error (.crcMismatch 0)) := by
  have hcrc : crc32 (dataForCrc (KVEntry.create key value ts)) < 2 ^ 32 :=
    crc32_lt _ (dataForCrc_lt _ hkey hval)
  refine ⟨?_, ?_, ?_, ?_, ?_, ?_⟩
  · intro t ht20
    apply read_entry_short_header
    simp only [List.length_take]
    omega
  · intro sz hsz
    rw [serialize_calculate_eq, read_entry_append [] _ ts (utf8Encode key).length
      value.length (utf8Encode key ++ value) _ rfl hcrc hts hks hvs]
    rw [if_pos]
    show 20 + (utf8Encode key).length + value.length ≠ sz
    simp only [KVEntry.total_size, KVEntry.create, HEADER_SIZE] at hsz
    omega
  · intro t h1 h2
    rw [serialize_take key value ts t h1]
    rw [read_entry_append [] _ ts (utf8Encode key).length value.length _ _ rfl
      hcrc hts hks hvs]
    rw [if_neg (by
      show ¬(20 + (utf8Encode key).length + value.length ≠ _)
      simp [KVEntry.total_size, KVEntry.create, HEADER_SIZE])]
    have hkdlen : ((((utf8Encode key ++ value).take (t - 20)).take
        (utf8Encode key).length)).length ≠ (utf8Encode key).length := by
      simp only [List.length_take, List.length_append]
      omega
    rw [if_pos hkdlen]
  · intro t h1 h2
    rw [serialize_take key value ts t (by omega)]
    rw [read_entry_append [] _ ts (utf8Encode key).length value.length _ _ rfl
      hcrc hts hks hvs]
    rw [if_neg (by
      show ¬(20 + (utf8Encode key).length + value.length ≠ _)
      simp [KVEntry.total_size, KVEntry.create, HEADER_SIZE])]
    have hkd : ((utf8Encode key ++ value).take (t - 20)).take
        (utf8Encode key).length = utf8Encode key := by
      rw [List.take_take, min_eq_left (by omega), List.take_left' rfl]
    rw [hkd, if_neg (by simp)]
    have hvd : (((utf8Encode key ++ value).take (t - 20)).drop
        (utf8Encode key).length).take value.length =
        value.take (t - 20 - (utf8Encode key).length) := by
      rw [List.drop_take, List.drop_left' rfl, List.take_take,
        min_eq_right (by omega)]
    rw [hvd, if_pos (by simp only [List.length_take]; omega)]
  · intro c kd vd hc hkd hvd hbad
    rw [show packBE 4 c ++ packBE 8 ts ++ packBE 4 kd.length ++
        packBE 4 vd.length ++ (kd ++ vd) =
      [] ++ (packBE 4 c ++ packBE 8 ts ++ packBE 4 kd.length ++
        packBE 4 vd.length ++ (kd ++ vd)) by simp]
    rw [read_entry_append [] c ts kd.length vd.length (kd ++ vd) _ rfl
      hc hts hkd hvd]
    rw [if_neg (by simp)]
    rw [List.take_left' rfl, List.drop_left' rfl]
    rw [if_neg (by simp), List.take_length, if_neg (by simp)]
    rw [hbad]
  · intro c hc hne
    rw [show serialize_entry ⟨c, ts, (utf8Encode key).length, value.length,
        key, value⟩ =
      [] ++ (packBE 4 c ++ packBE 8 ts ++ packBE 4 (utf8Encode key).length ++
        packBE 4 value.length ++ (utf8Encode key ++ value)) by
      simp [serialize_entry, List.append_assoc]]
    rw [read_entry_append [] c ts (utf8Encode key).length value.length _ _ rfl
      hc hts hks hvs]
    rw [if_neg (by simp)]
    rw [List.take_left' rfl, List.drop_left' rfl]
    rw [if_neg (by simp), List.take_length, if_neg (by simp)]
    rw [utf8Decode_encode key hkey]
    dsimp only
    rw [if_neg]
    simp only [verify_crc, beq_iff_eq]
    have hdfc : dataForCrc ⟨c, ts, (utf8Encode key).length, value.length,
        key, value⟩ = dataForCrc (KVEntry.create key value ts) := rfl
    rw [hdfc]
    exact fun h => hne h.symm

set_option maxRecDepth 4000 in
/-- C2 witness: all six validation stages exercised at key "h",
value "w", timestamp 5 — truncations at 5, 20 and 21 bytes, a wrong
location size 7, key bytes `[0xFF]`, and a zeroed stored checksum. -/
theorem C2_decode_validation_stages_witness :
    read_entry ((serialize_entry (calculate_crc
        (KVEntry.create [104] [119] 5))).take 5)
      ⟨0, 0, (KVEntry.create [104] [119] 5).total_size, 5⟩ =
      .error (.incompleteHeader 0) ∧
    read_entry (serialize_entry (calculate_crc (KVEntry.create [104] [119] 5)))
      ⟨0, 0, 7, 5⟩ =
      .error (.sizeMismatch 7 (20 + (utf8Encode [104]).length + [119].length)) ∧
    read_entry ((serialize_entry (calculate_crc
        (KVEntry.create [104] [119] 5))).take 20)
      ⟨0, 0, (KVEntry.create [104] [119] 5).total_size, 5⟩ =
      .error (.incompleteKeyData (utf8Encode [104]).length) ∧
    read_entry ((serialize_entry (calculate_crc
        (KVEntry.create [104] [119] 5))).take 21)
      ⟨0, 0, (KVEntry.create [104] [119] 5).total_size, 5⟩ =
      .error (.incompleteValueData [119].length) ∧
    read_entry (packBE 4 0 ++ packBE 8 5 ++ packBE 4 [255].length ++
        packBE 4 ([] : List Nat).length ++ ([255] ++ []))
      ⟨0, 0, 20 + [255].length + ([] : List Nat).length, 5⟩ =
      .error .invalidKeyEncoding ∧
    read_entry (serialize_entry
        ⟨0, 5, (utf8Encode [104]).length, [119].length, [104], [119]⟩)
      ⟨0, 0, 20 + (utf8Encode [104]).length + [119].length, 5⟩ =
      .error (.crcMismatch 0) := by
  obtain ⟨p1, p2, p3, p4, p5, p6⟩ :=
    C2_decode_validation_stages [104] [119] 5 (by decide) (by decide)
      (by decide) (by decide) (by decide)
  exact ⟨p1 5 (by decide), p2 7 (by decide), p3 20 (by decide) (by decide),
    p4 21 (by decide) (by decide),
    p5 0 [255] [] (by decide) (by decide) (by decide) (by decide),
    p6 0 (by decide) (by decide)⟩

/-! ### Append writer (`writer.py`)

`KVWriter`'s mutable state: the configured directory and size bound,
the active file id, the open handle (`active_file_handle`, modelled as
the id of the file the handle is open on, `none` when closed), the
write position, and the data files' contents (the filesystem seen
through the writer's appends).  `write_entry` returns the new state
together with the result, mirroring Python's mutate-then-return (or
mutate-then-raise) behaviour; the `ioFail` flag marks whether the
write/flush step raises `OSError`/`IOError`. -/

/-- `WriterError` from `exceptions.py` (message, optional operation,
optional file path). -/
structure WriterError where
  message : String
  operation : Option String := none
  file_path : Option String := none
deriving Repr, DecidableEq

/-- `KVWriter._get_file_path`: `os.path.join(data_dir, f"data_{file_id}.dat")`. -/
def get_file_path (data_dir : String) (file_id : Nat) : String :=
  data_dir ++ "/data_" ++ toString file_id ++ ".dat"

/-- The `KVWriter` state. -/
structure KVWriter where
  data_dir : String
  max_file_size : Nat
  active_file_id : Nat
  active_file_handle : Option Nat
  current_offset : Nat
  files : Nat → List Nat

/-- `KVWriter._should_rotate_file`. -/
def should_rotate_file (w : KVWriter) (entry_size : Nat) : Bool :=
  w.current_offset + entry_size > w.max_file_size

/-- `KVWriter._open_active_file`: open (append mode) the file for the
current `active_file_id`. -/
def open_active_file (w : KVWriter) : KVWriter :=
  { w with active_file_handle := some w.active_file_id }

/-- `KVWriter._rotate_to_new_file`: close the current handle, move to
the next file id, reset the offset, open the new file. -/
def rotate_to_new_file (w : KVWriter) : KVWriter :=
  let w1 := { w with active_file_handle := none }
  let w2 := { w1 with active_file_id := w1.active_file_id + 1, current_offset := 0 }
  open_active_file w2

/-- `KVWriter.write_entry`: fail if no handle is open; rotate if the
entry would overflow the bound; compute the CRC; serialize; append and
advance the offset (or, when the I/O step raises, surface a
`WriterError` with the untouched post-rotation state); return the
location of the write. -/
def write_entry (w : KVWriter) (entry : KVEntry) (ioFail : Bool) :
    KVWriter × Except WriterError KVLocation :=
  match w.active_file_handle with
  | none => (w, .error { message := "No active file handle available" })
  | some _ =>
    let entry_size := entry.total_size
    let w1 := if should_rotate_file w entry_size then rotate_to_new_file w else w
    let entry_with_crc := calculate_crc entry
    let write_offset := w1.current_offset
    let serialized := serialize_entry entry_with_crc
    if ioFail then
      (w1, .error { message := "Failed to write entry",
                    operation := some "write_entry",
                    file_path := some (get_file_path w1.data_dir w1.active_file_id) })
    else
      ({ w1 with
          files := fun i => if i = w1.active_file_id then w1.files i ++ serialized
            else w1.files i,
          current_offset := w1.current_offset + serialized.length },
       .ok { file_id := w1.active_file_id, entry_offset := write_offset,
             entry_size := entry_size, timestamp := entry.timestamp })

/-- `KVWriter.close`: release the handle (sets it to `None`). -/
def KVWriter.close (w : KVWriter) : KVWriter :=
  { w with active_file_handle := none }

/-- `KVWriter._initialize_active_file`, with the directory listing
abstracted to the parsed `(file_id, size)` pairs that
`_get_existing_file_ids` and `os.path.getsize` produce: take the
highest existing id; resume it at its size when below
`max_file_size`, otherwise (or when its size cannot be read) start at
id+1, offset 0; with no files start at id 0, offset 0.  Returns
`(active_file_id, current_offset)`. -/
def init_active_file (dir : List (Nat × Nat)) (max_file_size : Nat) : Nat × Nat :=
  match (dir.map Prod.fst).max? with
  | some last_file_id =>
    match dir.lookup last_file_id with
    | some file_size =>
      if file_size < max_file_size then (last_file_id, file_size)
      else (last_file_id + 1, 0)
    | none => (last_file_id + 1, 0)
  | none => (0, 0)

/-- A `KVWriter` as `__init__` builds it over directory listing `dir`
with file contents `fs`: id and offset from `init_active_file`, handle
opened on the active file. -/
def KVWriter.init (data_dir : String) (dir : List (Nat × Nat)) (max_file_size : Nat)
    (fs : Nat → List Nat) : KVWriter :=
  let p := init_active_file dir max_file_size
  { data_dir := data_dir, max_file_size := max_file_size, active_file_id := p.1,
    active_file_handle := some p.1, current_offset := p.2, files := fs }

/-- Sequential `write_entry` calls (no I/O failures), returning the
final state and the per-entry results. -/
def write_all (w : KVWriter) : List KVEntry → KVWriter × List (Except WriterError KVLocation)
  | [] => (w, [])
  | e :: es =>
    let r := write_entry w e false
    let rest := write_all r.1 es
    (rest.1, r.2 :: rest.2)

/-- The locations `write_all` should produce from file id `fid`
starting at offset `off`: consecutive, each advancing by the entry's
total size. -/
def expected_locs (fid off : Nat) : List KVEntry → List KVLocation
  | [] => []
  | e :: es =>
    ⟨fid, off, e.total_size, e.timestamp⟩ :: expected_locs fid (off + e.total_size) es

/-- C3: `write_entry` rotates exactly when
`current_offset + entry_size > max_file_size`; rotation closes the old
handle and leaves the handle open on the next file id, increments
`active_file_id` by one and resets `current_offset` to 0; with
`max_file_size = 84`, an entry that exactly fills 84 bytes is written
into the current file without rotation, and any further entry is
written at offset 0 of the next file id. -/
theorem C3_rotation_on_accumulated_overflow :
    (∀ (w : KVWriter) (e : KVEntry) (h : Nat),
      w.active_file_handle = some h →
      ((write_entry w e false).1.active_file_id = w.active_file_id + 1 ↔
        w.current_offset + e.total_size > w.max_file_size)) ∧
    (∀ w : KVWriter,
      (rotate_to_new_file w).active_file_id = w.active_file_id + 1 ∧
      (rotate_to_new_file w).current_offset = 0 ∧
      (rotate_to_new_file w).active_file_handle = some (w.active_file_id + 1)) ∧
    ((write_entry (KVWriter.init "data" [] 84 (fun _ => []))
        (KVEntry.create [107, 101, 121, 49] (List.replicate 60 120) 1000) false).2 =
      .ok ⟨0, 0, 84, 1000⟩ ∧
     (write_entry (KVWriter.init "data" [] 84 (fun _ => []))
        (KVEntry.create [107, 101, 121, 49] (List.replicate 60 120) 1000)
        false).1.active_file_id = 0 ∧
     (write_entry (KVWriter.init "data" [] 84 (fun _ => []))
        (KVEntry.create [107, 101, 121, 49] (List.replicate 60 120) 1000)
        false).1.current_offset = 84) ∧
    (∀ e2 : KVEntry,
      (write_entry ((write_entry (KVWriter.init "data" [] 84 (fun _ => []))
          (KVEntry.create [107, 101, 121, 49] (List.replicate 60 120) 1000) false).1)
        e2 false).2 = .ok ⟨1, 0, e2.total_size, e2.timestamp⟩) := by
  refine ⟨?_, ?_, ⟨rfl, rfl, rfl⟩, ?_⟩
  · intro w e h hopen
    simp only [write_entry, hopen]
    cases hrot : should_rotate_file w e.total_size with
    | true =>
      rw [if_pos rfl]
      simp only [should_rotate_file, decide_eq_true_eq] at hrot
      dsimp only [rotate_to_new_file, open_active_file]
      exact ⟨fun _ => hrot, fun _ => rfl⟩
    | false =>
      rw [if_neg (by simp)]
      simp only [should_rotate_file, decide_eq_false_iff_not] at hrot
      constructor
      · intro hh
        have hh2 : w.active_file_id = w.active_file_id + 1 := hh
        omega
      · intro hh
        exact absurd hh hrot
  · intro w
    simp [rotate_to_new_file, open_active_file]
  · intro e2
    have hsz : 20 ≤ e2.total_size := by
      simp only [KVEntry.total_size, HEADER_SIZE]
      omega
    set w1 := (write_entry (KVWriter.init "data" [] 84 (fun _ => []))
      (KVEntry.create [107, 101, 121, 49] (List.replicate 60 120) 1000) false).1 with hw1
    have hopen : w1.active_file_handle = some 0 := rfl
    have hoff : w1.current_offset = 84 := rfl
    have hmax : w1.max_file_size = 84 := rfl
    have hid : w1.active_file_id = 0 := rfl
    have hrot : should_rotate_file w1 e2.total_size = true := by
      simp [should_rotate_file, hoff, hmax]
      omega
    simp only [write_entry, hopen, hrot, if_true]
    simp [rotate_to_new_file, open_active_file, hid]

/-- C3 witness: the rotation criterion instantiated on a fresh writer
with `max_file_size` 100 and a 22-byte entry (no rotation: the left
side of the iff is false), the rotation effects on that writer, and
the second 84-byte-scenario write at a concrete 26-byte entry. -/
theorem C3_rotation_on_accumulated_overflow_witness :
    ((write_entry (KVWriter.init "d" [] 100 (fun _ => []))
        (KVEntry.create [104] [119] 3) false).1.active_file_id =
      (KVWriter.init "d" [] 100 (fun _ => [])).active_file_id + 1 ↔
      (KVWriter.init "d" [] 100 (fun _ => [])).current_offset +
        (KVEntry.create [104] [119] 3).total_size >
        (KVWriter.init "d" [] 100 (fun _ => [])).max_file_size) ∧
    (write_entry ((write_entry (KVWriter.init "data" [] 84 (fun _ => []))
        (KVEntry.create [107, 101, 121, 49] (List.replicate 60 120) 1000) false).1)
      (KVEntry.create [107] (List.replicate 5 7) 2000) false).2 =
      .ok ⟨1, 0, (KVEntry.create [107] (List.replicate 5 7) 2000).total_size, 2000⟩ := by
  obtain ⟨p1, _, _, p4⟩ := C3_rotation_on_accumulated_overflow
  exact ⟨p1 (KVWriter.init "d" [] 100 (fun _ => []))
    (KVEntry.create [104] [119] 3) 0 rfl,
    p4 (KVEntry.create [107] (List.replicate 5 7) 2000)⟩

/-- C4 counterexample: with `max_file_size = 10` and a fresh writer at
`current_offset = 0`, writing a 30-byte entry (alone exceeding the
bound) DOES trigger a rotation: the active file id moves from 0 to 1
and the entry is written at offset 0 of file 1, contradicting the
claim that no rotation happens in this situation. -/
theorem C4_oversized_counterexample :
    (write_entry (KVWriter.init "data" [] 10 (fun _ => []))
      (KVEntry.create [] (List.replicate 10 0) 0) false).1.active_file_id = 1 ∧
    (write_entry (KVWriter.init "data" [] 10 (fun _ => []))
      (KVEntry.create [] (List.replicate 10 0) 0) false).2 =
      .ok ⟨1, 0, 30, 0⟩ := ⟨rfl, rfl⟩

/-- C4 amended: an entry whose size alone exceeds `max_file_size` is
never split across two files — the whole serialized entry is appended
to exactly one file and every other file is untouched; but the
rotation guard is on `current_offset + entry_size > max_file_size`,
so writing such an entry at `current_offset = 0` DOES first rotate to
a fresh file, into which the entry is then written whole at offset 0. -/
theorem C4_oversized_never_split (w : KVWriter) (e : KVEntry) (h : Nat)
    (hopen : w.active_file_handle = some h)
    (hbig : w.max_file_size < e.total_size) (hoff : w.current_offset = 0) :
    (write_entry w e false).2 =
      .ok ⟨w.active_file_id + 1, 0, e.total_size, e.timestamp⟩ ∧
    (write_entry w e false).1.files (w.active_file_id + 1) =
      w.files (w.active_file_id + 1) ++ serialize_entry (calculate_crc e) ∧
    (∀ i, i ≠ w.active_file_id + 1 →
      (write_entry w e false).1.files i = w.files i) := by
  have hrot : should_rotate_file w e.total_size = true := by
    simp only [should_rotate_file, decide_eq_true_eq]
    omega
  simp only [write_entry, hopen, hrot, if_true, Bool.false_eq_true, if_false]
  dsimp only [rotate_to_new_file, open_active_file]
  refine ⟨rfl, ?_, ?_⟩
  · simp
  · intro i hi
    simp [hi]

/-- C4 witness: the amended statement at the counterexample input —
the 30-byte entry lands whole in file 1 of the fresh size-10 writer. -/
theorem C4_oversized_never_split_witness :
    (write_entry (KVWriter.init "data" [] 10 (fun _ => []))
      (KVEntry.create [] (List.replicate 10 0) 0) false).2 =
      .ok ⟨(KVWriter.init "data" [] 10 (fun _ => [])).active_file_id + 1, 0,
        (KVEntry.create [] (List.replicate 10 0) 0).total_size,
        (KVEntry.create [] (List.replicate 10 0) 0).timestamp⟩ ∧
    (write_entry (KVWriter.init "data" [] 10 (fun _ => []))
      (KVEntry.create [] (List.replicate 10 0) 0) false).1.files
        ((KVWriter.init "data" [] 10 (fun _ => [])).active_file_id + 1) =
      (KVWriter.init "data" [] 10 (fun _ => [])).files
        ((KVWriter.init "data" [] 10 (fun _ => [])).active_file_id + 1) ++
      serialize_entry (calculate_crc (KVEntry.create [] (List.replicate 10 0) 0)) := by
  obtain ⟨p1, p2, _⟩ := C4_oversized_never_split
    (KVWriter.init "data" [] 10 (fun _ => []))
    (KVEntry.create [] (List.replicate 10 0) 0) 0 rfl (by decide) rfl
  exact ⟨p1, p2⟩

theorem max?_eq_some_of_mem_ub (l : List Nat) (a : Nat)
    (h1 : a ∈ l) (h2 : ∀ b ∈ l, b ≤ a) : l.max? = some a := by
  rw [List.max?_eq_some_iff]
  · exact ⟨h1, h2⟩
  · exact fun x => le_refl x
  · exact fun x y => max_choice x y
  · exact fun x y z => Nat.max_le

/-- C5: writer initialization over an existing data directory takes the
highest existing file id (gaps tolerated); if that file's size is
strictly below `max_file_size` the writer resumes it with
`current_offset` equal to the file's size, if its size is at or above
`max_file_size` it starts a new file at id+1 with offset 0, and with no
data files it starts at file id 0, offset 0. -/
theorem C5_writer_init_resume (dir : List (Nat × Nat)) (m id sz : Nat)
    (hmem : id ∈ dir.map Prod.fst)
    (hub : ∀ j ∈ dir.map Prod.fst, j ≤ id)
    (hsz : dir.lookup id = some sz) :
    (∀ m2, init_active_file [] m2 = (0, 0)) ∧
    (sz < m → init_active_file dir m = (id, sz)) ∧
    (m ≤ sz → init_active_file dir m = (id + 1, 0)) := by
  have hmax : (dir.map Prod.fst).max? = some id :=
    max?_eq_some_of_mem_ub _ _ hmem hub
  refine ⟨fun m2 => rfl, ?_, ?_⟩
  · intro hlt
    simp only [init_active_file, hmax, hsz]
    rw [if_pos hlt]
  · intro hge
    simp only [init_active_file, hmax, hsz]
    rw [if_neg (by omega)]

/-- C5 witness: a directory with ids 0 and 5 (a gap): with
`max_file_size = 10` the writer resumes file 5 at its size 7; with
`max_file_size = 7` it starts file 6 at offset 0; an empty directory
starts at (0, 0). -/
theorem C5_writer_init_resume_witness :
    init_active_file [] 3 = (0, 0) ∧
    init_active_file [(0, 5), (5, 7)] 10 = (5, 7) ∧
    init_active_file [(0, 5), (5, 7)] 7 = (6, 0) := by
  obtain ⟨p1, p2, _⟩ := C5_writer_init_resume [(0, 5), (5, 7)] 10 5 7
    (by decide) (by decide) (by decide)
  obtain ⟨_, _, q3⟩ := C5_writer_init_resume [(0, 5), (5, 7)] 7 5 7
    (by decide) (by decide) (by decide)
  exact ⟨p1 3, p2 (by decide), q3 (by decide)⟩

theorem total_size_calculate_crc (e : KVEntry) :
    (calculate_crc e).total_size = e.total_size := rfl

/-- C6: sequential writes into one file produce strictly increasing,
contiguous offsets.  With the handle open and no rotation possible
(the accumulated sizes fit in `max_file_size`), each `write_entry`
returns a Location whose offset is the writer's `current_offset`
before the write, whose size is the entry's `total_size`, whose
file id is the active file id and whose timestamp is the entry's;
after N writes `current_offset` equals the initial offset plus the sum
of the N encoded sizes. -/
theorem C6_sequential_contiguous_offsets (es : List KVEntry) :
    ∀ (w : KVWriter) (h : Nat), w.active_file_handle = some h →
    w.current_offset + (es.map KVEntry.total_size).sum ≤ w.max_file_size →
    (write_all w es).2 =
      (expected_locs w.active_file_id w.current_offset es).map .ok ∧
    (write_all w es).1.current_offset =
      w.current_offset + (es.map KVEntry.total_size).sum ∧
    (write_all w es).1.active_file_id = w.active_file_id := by
  induction es with
  | nil =>
    intro w h hopen hfit
    simp [write_all, expected_locs]
  | cons e es' ih =>
    intro w h hopen hfit
    simp only [List.map_cons, List.sum_cons] at hfit
    have hrot : ¬(should_rotate_file w e.total_size = true) := by
      simp only [should_rotate_file, decide_eq_true_eq]
      omega
    have hlen : (serialize_entry (calculate_crc e)).length = e.total_size := by
      rw [serialize_entry_length, total_size_calculate_crc]
    have hwrite : write_entry w e false =
        ({ w with
            active_file_handle := some h,
            files := fun i => if i = w.active_file_id then
              w.files i ++ serialize_entry (calculate_crc e) else w.files i,
            current_offset := w.current_offset + e.total_size },
         .ok ⟨w.active_file_id, w.current_offset, e.total_size, e.timestamp⟩) := by
      simp only [write_entry, hopen]
      rw [if_neg hrot, if_neg (by simp)]
      rw [hlen, hopen]
    simp only [write_all, hwrite]
    obtain ⟨ih1, ih2, ih3⟩ := ih
      { w with
          active_file_handle := some h,
          files := fun i => if i = w.active_file_id then
            w.files i ++ serialize_entry (calculate_crc e) else w.files i,
          current_offset := w.current_offset + e.total_size }
      h rfl
      (by
        show w.current_offset + e.total_size +
          (es'.map KVEntry.total_size).sum ≤ w.max_file_size
        omega)
    refine ⟨?_, ?_, ?_⟩
    · rw [ih1]
      rfl
    · rw [ih2]
      show w.current_offset + e.total_size +
        (es'.map KVEntry.total_size).sum = _
      simp only [List.map_cons, List.sum_cons]
      omega
    · rw [ih3]

/-- C6 witness: two writes ("h"→"w" at time 1, "hi"→3 bytes at time 2)
on a fresh writer with bound 100 give locations (0,0,22,1) and
(0,22,25,2) and final offset 47. -/
theorem C6_sequential_contiguous_offsets_witness :
    (write_all (KVWriter.init "d" [] 100 (fun _ => []))
      [KVEntry.create [104] [119] 1, KVEntry.create [104, 105] [1, 2, 3] 2]).2 =
      (expected_locs (KVWriter.init "d" [] 100 (fun _ => [])).active_file_id
        (KVWriter.init "d" [] 100 (fun _ => [])).current_offset
        [KVEntry.create [104] [119] 1, KVEntry.create [104, 105] [1, 2, 3] 2]).map
        .ok ∧
    (write_all (KVWriter.init "d" [] 100 (fun _ => []))
      [KVEntry.create [104] [119] 1, KVEntry.create [104, 105] [1, 2, 3] 2]).1.current_offset =
      (KVWriter.init "d" [] 100 (fun _ => [])).current_offset +
      ([KVEntry.create [104] [119] 1, KVEntry.create [104, 105] [1, 2, 3] 2].map
        KVEntry.total_size).sum ∧
    (write_all (KVWriter.init "d" [] 100 (fun _ => []))
      [KVEntry.create [104] [119] 1, KVEntry.create [104, 105] [1, 2, 3] 2]).1.active_file_id =
      (KVWriter.init "d" [] 100 (fun _ => [])).active_file_id :=
  C6_sequential_contiguous_offsets
    [KVEntry.create [104] [119] 1, KVEntry.create [104, 105] [1, 2, 3] 2]
    (KVWriter.init "d" [] 100 (fun _ => [])) 0 rfl (by decide)

/-- C8: for every entry the total serialized size is 20 (the fixed
header) plus the UTF-8 byte length of the key plus the byte length of
the value; the key "café" contributes 5 bytes, not 4; and writing key
"hello", value "world", timestamp 1672531200 as the first entry of a
fresh writer yields Location (file_id 0, offset 0, size 30,
timestamp 1672531200). -/
theorem C8_total_size_and_hello_world :
    (∀ e : KVEntry, e.total_size = 20 + (utf8Encode e.key).length + e.value.length) ∧
    (utf8Encode [0x63, 0x61, 0x66, 0xE9]).length = 5 ∧
    (KVEntry.create [0x63, 0x61, 0x66, 0xE9] [] 0).key_size = 5 ∧
    (write_entry (KVWriter.init "data" [] (1024 * 1024 * 1024) (fun _ => []))
      (KVEntry.create [104, 101, 108, 108, 111] [119, 111, 114, 108, 100] 1672531200)
      false).2 = .ok ⟨0, 0, 30, 1672531200⟩ :=
  ⟨fun _ => rfl, by decide, by decide, rfl⟩

/-- C9: Closed is terminal for the writer.  After `close`, every
`write_entry` call (and every call in any subsequent sequence) fails
with the no-active-file-handle `WriterError`, writes nothing, and
leaves the closed state exactly as it was. -/
theorem C9_closed_is_terminal :
    (∀ (w : KVWriter) (e : KVEntry) (ioFail : Bool),
      write_entry (KVWriter.close w) e ioFail =
        (KVWriter.close w, .error { message := "No active file handle available" })) ∧
    (∀ (w : KVWriter) (es : List KVEntry),
      write_all (KVWriter.close w) es =
        (KVWriter.close w,
         es.map (fun _ => .error { message := "No active file handle available" }))) := by
  have h1 : ∀ (w : KVWriter) (e : KVEntry) (ioFail : Bool),
      write_entry (KVWriter.close w) e ioFail =
        (KVWriter.close w, .error { message := "No active file handle available" }) :=
    fun w e ioFail => rfl
  refine ⟨h1, fun w es => ?_⟩
  induction es with
  | nil => rfl
  | cons e es' ih =>
    simp only [write_all, h1, List.map_cons]
    rw [ih]

/-- C10: if the serialize/append/flush step of `write_entry` raises,
the call surfaces a `WriterError` carrying the attempted operation
("write_entry") and the active file's path, and the writer state is
exactly the state after the (already completed) rotation check —
`current_offset` is never advanced for the failed entry, so a later
successful write that needs no rotation reuses that same offset. -/
theorem C10_failed_write_preserves_offset (w : KVWriter) (e : KVEntry) (h : Nat)
    (hopen : w.active_file_handle = some h) :
    (write_entry w e true).1 =
      (if should_rotate_file w e.total_size then rotate_to_new_file w else w) ∧
    (write_entry w e true).2 = .error
      { message := "Failed to write entry", operation := some "write_entry",
        file_path := some (get_file_path w.data_dir
          (write_entry w e true).1.active_file_id) } ∧
    (∀ e2 : KVEntry,
      (write_entry w e true).1.current_offset + e2.total_size ≤ w.max_file_size →
      (write_entry (write_entry w e true).1 e2 false).2 =
        .ok ⟨(write_entry w e true).1.active_file_id,
          (write_entry w e true).1.current_offset, e2.total_size, e2.timestamp⟩) := by
  have hw1 : (write_entry w e true).1 =
      (if should_rotate_file w e.total_size then rotate_to_new_file w else w) := by
    simp only [write_entry, hopen, if_true]
  refine ⟨hw1, ?_, ?_⟩
  · rw [hw1]
    simp only [write_entry, hopen, if_true]
    cases hrot : should_rotate_file w e.total_size with
    | true => simp [rotate_to_new_file, open_active_file]
    | false => simp
  · intro e2 hfit2
    rw [hw1] at hfit2 ⊢
    by_cases hrot : should_rotate_file w e.total_size = true
    case pos =>
      rw [if_pos hrot] at hfit2 ⊢
      have hopen1 : (rotate_to_new_file w).active_file_handle =
          some (w.active_file_id + 1) := rfl
      have hrot2 : ¬(should_rotate_file (rotate_to_new_file w) e2.total_size = true) := by
        simp only [should_rotate_file, decide_eq_true_eq]
        have hfit3 : 0 + e2.total_size ≤ w.max_file_size := hfit2
        show ¬(0 + e2.total_size > w.max_file_size)
        omega
      simp only [write_entry, hopen1]
      rw [if_neg hrot2, if_neg (by simp)]
    case neg =>
      rw [if_neg hrot] at hfit2 ⊢
      have hrot2 : ¬(should_rotate_file w e2.total_size = true) := by
        simp only [should_rotate_file, decide_eq_true_eq]
        omega
      simp only [write_entry, hopen]
      rw [if_neg hrot2, if_neg (by simp)]

/-- C10 witness: a fresh writer with bound 100, a failing write of a
20-byte entry (no rotation needed), then a succeeding write of another
20-byte entry at the same offset 0. -/
theorem C10_failed_write_preserves_offset_witness :
    (write_entry (KVWriter.init "d" [] 100 (fun _ => []))
        (KVEntry.create [] [] 3) true).1 =
      (if should_rotate_file (KVWriter.init "d" [] 100 (fun _ => []))
          (KVEntry.create [] [] 3).total_size then
        rotate_to_new_file (KVWriter.init "d" [] 100 (fun _ => []))
      else KVWriter.init "d" [] 100 (fun _ => [])) ∧
    (write_entry (KVWriter.init "d" [] 100 (fun _ => []))
        (KVEntry.create [] [] 3) true).2 = .error
      { message := "Failed to write entry", operation := some "write_entry",
        file_path := some (get_file_path "d"
          (write_entry (KVWriter.init "d" [] 100 (fun _ => []))
            (KVEntry.create [] [] 3) true).1.active_file_id) } ∧
    (write_entry (write_entry (KVWriter.init "d" [] 100 (fun _ => []))
        (KVEntry.create [] [] 3) true).1 (KVEntry.create [] [] 4) false).2 =
      .ok ⟨(write_entry (KVWriter.init "d" [] 100 (fun _ => []))
          (KVEntry.create [] [] 3) true).1.active_file_id,
        (write_entry (KVWriter.init "d" [] 100 (fun _ => []))
          (KVEntry.create [] [] 3) true).1.current_offset,
        (KVEntry.create [] [] 4).total_size, 4⟩ := by
  obtain ⟨p1, p2, p3⟩ := C10_failed_write_preserves_offset
    (KVWriter.init "d" [] 100 (fun _ => [])) (KVEntry.create [] [] 3) 0 rfl
  exact ⟨p1, p2, p3 (KVEntry.create [] [] 4) (by decide)⟩

/-! ### Reader state (`KVReader`)

The reader's only mutable state is its file-handle cache
(`file_handles`), modelled as the association list of file ids opened
so far with the contents seen through each handle; `_get_file_handle`
opens (and caches) the handle on first use and fails with
file-not-found when the file is absent. -/

/-- The errors `KVReader.read_entry` can raise: the
`FileNotFoundError` from `_get_file_handle`, or a corruption error
from decoding. -/
inductive ReaderError where
  | fileNotFound (file_id : Nat)
  | corrupted (e : CorruptionError)
deriving Repr, DecidableEq

/-- The `KVReader` state: the handle cache. -/
structure KVReader where
  file_handles : List (Nat × List Nat)
deriving Repr, DecidableEq

/-- `KVReader.read_entry` as a state transformer over the filesystem
`fs` (file id to contents): `_get_file_handle` reuses a cached handle
or opens and caches one, then the entry is decoded from the file's
bytes at the location. -/
def reader_read_entry (fs : Nat → Option (List Nat)) (r : KVReader)
    (loc : KVLocation) : KVReader × Except ReaderError KVEntry :=
  match r.file_handles.lookup loc.file_id with
  | some contents => (r, (read_entry contents loc).mapError .corrupted)
  | none =>
    match fs loc.file_id with
    | some contents =>
      (⟨r.file_handles ++ [(loc.file_id, contents)]⟩,
       (read_entry contents loc).mapError .corrupted)
    | none => (r, .error (.fileNotFound loc.file_id))

theorem mem_of_lookup_eq_some (l : List (Nat × List Nat)) (k : Nat) (v : List Nat)
    (h : l.lookup k = some v) : (k, v) ∈ l := by
  induction l with
  | nil => simp [List.lookup] at h
  | cons p t ih =>
    obtain ⟨a, b⟩ := p
    simp only [List.lookup] at h
    cases hk : (k == a) with
    | true =>
      rw [hk] at h
      simp only [Option.some.injEq] at h
      have hka : k = a := eq_of_beq hk
      subst hka
      subst h
      exact List.mem_cons_self _ _
    | false =>
      rw [hk] at h
      exact List.mem_cons_of_mem _ (ih h)

theorem reader_read_entry_ok (fs : Nat → Option (List Nat)) (r : KVReader)
    (hr : ∀ id c, (id, c) ∈ r.file_handles → fs id = some c)
    (loc : KVLocation) (contents : List Nat) (e : KVEntry)
    (h2 : fs loc.file_id = some contents)
    (h3 : read_entry contents loc = .ok e) :
    (reader_read_entry fs r loc).2 = .ok e := by
  unfold reader_read_entry
  cases hl : r.file_handles.lookup loc.file_id with
  | some c =>
    have hfs : fs loc.file_id = some c :=
      hr _ _ (mem_of_lookup_eq_some _ _ _ hl)
    rw [hfs] at h2
    obtain rfl : c = contents := by injection h2
    simp [h3, Except.mapError]
  | none =>
    rw [h2]
    simp [h3, Except.mapError]

theorem reader_state_consistent (fs : Nat → Option (List Nat)) (r : KVReader)
    (hr : ∀ id c, (id, c) ∈ r.file_handles → fs id = some c) (loc1 : KVLocation) :
    ∀ id c, (id, c) ∈ (reader_read_entry fs r loc1).1.file_handles →
      fs id = some c := by
  intro id c hmem
  unfold reader_read_entry at hmem
  cases hl : r.file_handles.lookup loc1.file_id with
  | some contents =>
    rw [hl] at hmem
    exact hr id c hmem
  | none =>
    rw [hl] at hmem
    cases hfs : fs loc1.file_id with
    | some contents =>
      rw [hfs] at hmem
      simp only [List.mem_append, List.mem_singleton] at hmem
      rcases hmem with hmem | hmem
      · exact hr id c hmem
      · rw [Prod.mk.injEq] at hmem
        obtain ⟨rfl, rfl⟩ := hmem
        exact hfs
    | none =>
      rw [hfs] at hmem
      exact hr id c hmem

/-- C7: a corruption error is terminal only for the specific read that
raised it.  After a `read_entry` has failed with any reader error (for
example the checksum mismatch a flipped stored-checksum byte causes),
the reader state left behind is not corrupted: a subsequent read of
any uncorrupted location — including one in the same file — still
returns the correct entry.  The cache-consistency hypothesis says each
cached handle holds the contents of its file. -/
theorem C7_corruption_error_is_read_local (fs : Nat → Option (List Nat)) (r : KVReader)
    (hr : ∀ id c, (id, c) ∈ r.file_handles → fs id = some c)
    (loc1 loc2 : KVLocation) (err : ReaderError) (e2 : KVEntry)
    (contents2 : List Nat)
    (h1 : (reader_read_entry fs r loc1).2 = .error err)
    (h2 : fs loc2.file_id = some contents2)
    (h3 : read_entry contents2 loc2 = .ok e2) :
    (reader_read_entry fs (reader_read_entry fs r loc1).1 loc2).2 = .ok e2 :=
  reader_read_entry_ok fs _ (reader_state_consistent fs r hr loc1) loc2
    contents2 e2 h2 h3

set_option maxRecDepth 8000 in
/-- C7 witness: a file holding two entries whose first entry's stored
checksum bytes are flipped; reading the first location fails with a
checksum mismatch and reading the second location from the resulting
reader state still returns the second entry. -/
theorem C7_corruption_error_is_read_local_witness :
    (reader_read_entry
      (fun i => if i = 0 then some
        (serialize_entry ⟨crc32 (dataForCrc (KVEntry.create [97] [1] 11)) ^^^ 0xFF,
          11, 1, 1, [97], [1]⟩ ++
         serialize_entry (calculate_crc (KVEntry.create [98] [2] 12))) else none)
      ⟨[]⟩ ⟨0, 0, 22, 11⟩).2 = .error (.corrupted (.crcMismatch 0)) ∧
    (reader_read_entry
      (fun i => if i = 0 then some
        (serialize_entry ⟨crc32 (dataForCrc (KVEntry.create [97] [1] 11)) ^^^ 0xFF,
          11, 1, 1, [97], [1]⟩ ++
         serialize_entry (calculate_crc (KVEntry.create [98] [2] 12))) else none)
      (reader_read_entry
        (fun i => if i = 0 then some
          (serialize_entry ⟨crc32 (dataForCrc (KVEntry.create [97] [1] 11)) ^^^ 0xFF,
            11, 1, 1, [97], [1]⟩ ++
           serialize_entry (calculate_crc (KVEntry.create [98] [2] 12))) else none)
        ⟨[]⟩ ⟨0, 0, 22, 11⟩).1 ⟨0, 22, 22, 12⟩).2 =
      .ok (calculate_crc (KVEntry.create [98] [2] 12)) := by
  refine ⟨rfl, ?_⟩
  exact C7_corruption_error_is_read_local _ ⟨[]⟩ (fun id c hmem => absurd hmem (List.not_mem_nil _))
    ⟨0, 0, 22, 11⟩ ⟨0, 22, 22, 12⟩ (.corrupted (.crcMismatch 0))
    (calculate_crc (KVEntry.create [98] [2] 12)) _ rfl rfl rfl
